import Mathlib

/-!
Shallow embedding of `src/letus_checker_secure.py` (LETUS assignment
watcher).  Machine text is modelled as `List Char`; the regular
expressions of `parse_due_date` are embedded as explicit backtracking
matchers with Python's leftmost-match, greedy/lazy semantics (`\d` and
`\s` restricted to their ASCII meaning, which covers every input used
below); timestamps are records of numeric fields, all denominated in the
fixed reference timezone JST exactly as the code attaches `tzinfo=JST`.
Run-level time is an integer number of seconds.
-/

namespace Letus

/-- Ascii view of the `\d` character class used by both regexes. -/
def isDig (c : Char) : Bool := 48 ≤ c.toNat && c.toNat ≤ 57

/-- Ascii view of the `\s` character class. -/
def isWs (c : Char) : Bool :=
  c = ' ' || c = '\t' || c = '\n' || c = '\r' || c = '\x0b' || c = '\x0c'

/-- Numeric value of a run of digit characters, as Python `int` reads it. -/
def digitsVal (ds : List Char) : Nat :=
  ds.foldl (fun a c => a * 10 + (c.toNat - 48)) 0

/-- Consume exactly `n` digit characters (the regex piece `\d{n}`). -/
def takeExact : Nat → List Char → Option (List Char × List Char)
  | 0, cs => some ([], cs)
  | _ + 1, [] => none
  | n + 1, c :: cs =>
    if isDig c then
      match takeExact n cs with
      | some (ds, r) => some (c :: ds, r)
      | none => none
    else none

/-- Candidate splits for the greedy group `(\d{1,2})`, greedy first. -/
def take12 (cs : List Char) : List (List Char × List Char) :=
  match cs with
  | [] => []
  | [c] => if isDig c then [([c], [])] else []
  | c1 :: c2 :: r =>
    if isDig c1 then
      if isDig c2 then [([c1, c2], r), ([c1], c2 :: r)]
      else [([c1], c2 :: r)]
    else []

/-- First candidate that the continuation accepts (backtracking order). -/
def firstSome {α β : Type} : List α → (α → Option β) → Option β
  | [], _ => none
  | a :: r, f =>
    match f a with
    | some b => some b
    | none => firstSome r f

/-- Captured groups of the Japanese date regex. -/
structure JpGroups where
  year : Nat
  month : Nat
  day : Nat
  hour : Nat
  minute : Nat
deriving DecidableEq, Repr

/-- Tail `(\d{2})` of the Japanese regex: the minute field. -/
def jpMin (cs : List Char) : List Nat :=
  match takeExact 2 cs with
  | some (ms, _) => [digitsVal ms]
  | none => []

/-- Piece `(\d{1,2}):(\d{2})` of the Japanese regex. -/
def jpHour (cs : List Char) : List (Nat × Nat) :=
  (take12 cs).flatMap (fun p =>
    match p.2 with
    | c :: r => if c = ':' then (jpMin r).map (fun mm => (digitsVal p.1, mm)) else []
    | [] => [])

/-- Piece `(\d{1,2})日\s*(\d{1,2}):(\d{2})` of the Japanese regex. -/
def jpDay (cs : List Char) : List (Nat × Nat × Nat) :=
  (take12 cs).flatMap (fun p =>
    match p.2 with
    | c :: r => if c = '日' then (jpHour (r.dropWhile isWs)).map (fun q => (digitsVal p.1, q)) else []
    | [] => [])

/-- Piece `(\d{1,2})月(\d{1,2})日\s*(\d{1,2}):(\d{2})` of the Japanese regex. -/
def jpMonth (cs : List Char) : List (Nat × Nat × Nat × Nat) :=
  (take12 cs).flatMap (fun p =>
    match p.2 with
    | c :: r => if c = '月' then (jpDay r).map (fun q => (digitsVal p.1, q)) else []
    | [] => [])

/-- Matches of `(\d{4})年(\d{1,2})月(\d{1,2})日\s*(\d{1,2}):(\d{2})` anchored here. -/
def jpCands (cs : List Char) : List JpGroups :=
  match takeExact 4 cs with
  | some (ys, r) =>
    match r with
    | c :: r2 =>
      if c = '年' then
        (jpMonth r2).map (fun q => ⟨digitsVal ys, q.1, q.2.1, q.2.2.1, q.2.2.2⟩)
      else []
    | [] => []
  | none => []

/-- Embedding of `re.search` with the Japanese pattern: leftmost match wins. -/
def searchJP : List Char → Option JpGroups
  | [] => none
  | c :: r =>
    match (jpCands (c :: r)).head? with
    | some g => some g
    | none => searchJP r

/-- Ascii lowering, the effect of `re.I` and `str.lower` on this data. -/
def lowerAsc (c : Char) : Char :=
  if 'A' ≤ c && c ≤ 'Z' then Char.ofNat (c.toNat + 32) else c

/-- Case-insensitive literal match; yields the rest of the input. -/
def matchLit : List Char → List Char → Option (List Char)
  | [], cs => some cs
  | _ :: _, [] => none
  | p :: ps, c :: cs => if lowerAsc p = lowerAsc c then matchLit ps cs else none

/-- Month-name alternation of the English regex, in source order. -/
def monthNames : List String :=
  ["January", "February", "March", "April", "May", "June",
   "July", "August", "September", "October", "November", "December"]

/-- Try each month-name alternative; capture the matched original text. -/
def matchMonthFrom : List String → List Char → Option (List Char × List Char)
  | [], _ => none
  | n :: ns, cs =>
    match matchLit n.data cs with
    | some r => some (cs.take n.data.length, r)
    | none => matchMonthFrom ns cs

/-- Piece `\s+` of the English regex (ws and the following classes are
disjoint, so the greedy take is exact). -/
def wsPlus (cs : List Char) : Option (List Char) :=
  match cs with
  | c :: r => if isWs c then some (r.dropWhile isWs) else none
  | [] => none

/-- Piece `(AM|PM)` under `re.I`, capturing the matched text. -/
def ampmAt (cs : List Char) : Option (List Char) :=
  match cs with
  | a :: m :: _ =>
    if (lowerAsc a = 'a' || lowerAsc a = 'p') && lowerAsc m = 'm' then some [a, m] else none
  | _ => none

/-- Piece `(\d{1,2}):(\d{2})\s*(AM|PM)` of the English regex. -/
def enTime (cs : List Char) : Option (Nat × Nat × List Char) :=
  firstSome (take12 cs) (fun p =>
    match p.2 with
    | c :: r =>
      if c = ':' then
        match takeExact 2 r with
        | some (ms, r2) =>
          match ampmAt (r2.dropWhile isWs) with
          | some am => some (digitsVal p.1, digitsVal ms, am)
          | none => none
        | none => none
      else none
    | [] => none)

/-- Lazy `.*?` before the time: try the shortest expansion first; the dot
does not cross a newline. -/
def scanLazy : List Char → Option (Nat × Nat × List Char)
  | [] => none
  | c :: r =>
    match enTime (c :: r) with
    | some t => some t
    | none => if c = '\n' then none else scanLazy r

/-- Captured groups of the English date regex. -/
structure EnGroups where
  day : Nat
  mon : List Char
  year : Nat
  hour12 : Nat
  minute : Nat
  ampm : List Char
deriving DecidableEq, Repr

/-- Matches of the English pattern anchored at this position. -/
def enAt (cs : List Char) : Option EnGroups :=
  firstSome (take12 cs) (fun p => do
    let r1 ← wsPlus p.2
    let (monTxt, r2) ← matchMonthFrom monthNames r1
    let r3 ← wsPlus r2
    let (ys, r4) ← takeExact 4 r3
    let t ← scanLazy r4
    some ⟨digitsVal p.1, monTxt, digitsVal ys, t.1, t.2.1, t.2.2⟩)

/-- Embedding of `re.search` with the English pattern. -/
def searchEN : List Char → Option EnGroups
  | [] => none
  | c :: r =>
    match enAt (c :: r) with
    | some g => some g
    | none => searchEN r

/-- Timestamp fields; every value is denominated in the fixed reference
timezone JST, exactly as the code attaches `tzinfo=JST` and never converts. -/
structure DT where
  year : Nat
  month : Nat
  day : Nat
  hour : Nat
  minute : Nat
deriving DecidableEq, Repr

/-- Gregorian leap-year rule used by `datetime`. -/
def isLeap (y : Nat) : Bool := y % 4 = 0 && (y % 100 ≠ 0 || y % 400 = 0)

/-- Length of a month as `datetime` checks it. -/
def daysInMonth (y m : Nat) : Nat :=
  if m = 2 then (if isLeap y then 29 else 28)
  else if m = 4 || m = 6 || m = 9 || m = 11 then 30
  else 31

/-- Field ranges accepted by the `dt.datetime` constructor. -/
def validDT (y m d hh mm : Nat) : Bool :=
  1 ≤ y && y ≤ 9999 && 1 ≤ m && m ≤ 12 && 1 ≤ d && d ≤ daysInMonth y m
    && hh ≤ 23 && mm ≤ 59

/-- Outcome of `parse_due_date`: a timestamp, Python `None`, or a raised
`ValueError` escaping from the `dt.datetime` constructor. -/
inductive PResult where
  | parsed (t : DT)
  | absent
  | raised
deriving DecidableEq, Repr

/-- The `dt.datetime(y, m, d, hh, mm, tzinfo=JST)` call: a value when the
fields are in range, otherwise a raised `ValueError`. -/
def mkDT (y m d hh mm : Nat) : PResult :=
  if validDT y m d hh mm then .parsed ⟨y, m, d, hh, mm⟩ else .raised

/-- Lookup backing `dt.datetime.strptime(mon[:3], "%b").month` (C-locale
abbreviated month names, matched case-insensitively); the input here is
already lowered. -/
def monthFromAbbr (cs : List Char) : Option Nat :=
  if cs = "jan".data then some 1
  else if cs = "feb".data then some 2
  else if cs = "mar".data then some 3
  else if cs = "apr".data then some 4
  else if cs = "may".data then some 5
  else if cs = "jun".data then some 6
  else if cs = "jul".data then some 7
  else if cs = "aug".data then some 8
  else if cs = "sep".data then some 9
  else if cs = "oct".data then some 10
  else if cs = "nov".data then some 11
  else if cs = "dec".data then some 12
  else none

/-- Embedding of `parse_due_date` (src/letus_checker_secure.py lines
66–77): try the Japanese pattern, then the English pattern; on a match,
build the datetime — which raises when a captured field is out of range. -/
def parse_due_date (text : List Char) : PResult :=
  match searchJP text with
  | some g => mkDT g.year g.month g.day g.hour g.minute
  | none =>
    match searchEN text with
    | some g =>
      match monthFromAbbr ((g.mon.take 3).map lowerAsc) with
      | some mi =>
        let hh := g.hour12 % 12 + (if g.ampm.map lowerAsc = "pm".data then 12 else 0)
        mkDT g.year mi g.day hh g.minute
      | none => .raised
    | none => .absent

/-- True of every Python string `s` with `pat in s` (substring test). -/
def prefixEq : List Char → List Char → Bool
  | [], _ => true
  | _ :: _, [] => false
  | p :: ps, c :: cs => p = c && prefixEq ps cs

/-- Substring containment, the Python `in` operator on strings. -/
def containsSub (pat : List Char) : List Char → Bool
  | [] => prefixEq pat []
  | c :: r => prefixEq pat (c :: r) || containsSub pat r

/-- Python `pat in hay` for strings. -/
def containsStr (hay pat : String) : Bool := containsSub pat.data hay.data

/-- Kind (class) of a raised Python exception: both login failures raise
`RuntimeError`; navigation failures surface as Playwright errors. -/
inductive ErrKind where
  | runtimeError
  | playwrightError
deriving DecidableEq, Repr

/-- A raised Python exception: its class and its message. -/
structure PyErr where
  kind : ErrKind
  msg : String
deriving DecidableEq, Repr

/-- One timeline entry as built by `fetch_upcoming`: `link` is the
anchor's href (absent when missing), `due` the parsed timestamp as a JST
instant in seconds (absent when unparseable). -/
structure Entry where
  label : String
  link : Option String
  due : Option Int
deriving DecidableEq, Repr

/-- Python truthiness of an `Optional[str]`: `None` and `""` are falsy. -/
def falsyOpt : Option String → Bool
  | none => true
  | some s => s = ""

/-- Embedding of `LetusChecker.login` error behaviour (lines 104–122):
with a cached session it returns at once; otherwise missing/empty stored
credentials raise one `RuntimeError`, and the login-error marker in the
post-submit page content raises another.  Inputs: whether the timeline
marker was already present, the credential store, and the page content
after submitting the form. -/
def loginResult (cached : Bool) (store : String → Option String)
    (postLoginHtml : String) : Except PyErr Unit :=
  if cached then .ok ()
  else if falsyOpt (store "USERNAME") || falsyOpt (store "PASSWORD") then
    .error ⟨.runtimeError, "Credentials not stored; run with --configure first."⟩
  else if containsStr postLoginHtml "ログインエラー" then
    .error ⟨.runtimeError, "Login failed – check credentials/MFA."⟩
  else .ok ()

/-- Kind of the error a login attempt raised, if any. -/
def loginErrKind (r : Except PyErr Unit) : Option ErrKind :=
  match r with
  | .error e => some e.kind
  | .ok _ => none

/-- Embedding of `LetusChecker.is_submitted` (lines 135–139): navigate to
the link and look for either submitted marker.  `nav` is the environment:
the page content a successful `page.goto(url)` yields, or the failure
message.  A `None` link makes `page.goto` itself raise. -/
def is_submitted (nav : String → Except String String) (link : Option String) :
    Except PyErr Bool :=
  match link with
  | none => .error ⟨.playwrightError, "goto: url expected string, got NoneType"⟩
  | some url =>
    match nav url with
    | .error m => .error ⟨.playwrightError, m⟩
    | .ok html => .ok (containsStr html "提出済" || containsStr html "Submitted for grading")

/-- The `for task in upcoming` loop of `run` (lines 147–150).  First
component: the accumulated `alerts` list, or the first exception that
escaped `is_submitted`.  Second component: every entry on which
`is_submitted` was invoked, in order, up to the abort point. -/
def runLoop (nav : String → Except String String) (threshold : Int) :
    List Entry → Except PyErr (List Entry) × List Entry
  | [] => (.ok [], [])
  | e :: rest =>
    match e.due with
    | none => runLoop nav threshold rest
    | some t =>
      if t ≤ threshold then
        match is_submitted nav e.link with
        | .error err => (.error err, [e])
        | .ok true =>
          let p := runLoop nav threshold rest
          (p.1, e :: p.2)
        | .ok false =>
          let p := runLoop nav threshold rest
          (match p.1 with
           | .ok l => .ok (e :: l)
           | .error er => .error er, e :: p.2)
      else runLoop nav threshold rest

/-- Observable outcome of one `run` after login and fetch succeeded. -/
structure ScanRes where
  outcome : Except PyErr Nat
  alerts : List Entry
  classified : List Entry
  notified : List (List Entry)
deriving Repr

/-- Embedding of `LetusChecker.run` (lines 141–153) after `login` and
`fetch_upcoming` produced `entries`: `threshold = now + timedelta(hours=h)`
with run-level time in seconds, the loop above, then `notify(alerts)`
exactly when `alerts` is non-empty, and `len(alerts)` is returned.  An
exception escaping the loop aborts `run` before `notify`. -/
def runScan (nav : String → Except String String) (entries : List Entry)
    (now : Int) (h : Int) : ScanRes :=
  let threshold := now + 3600 * h
  let r := runLoop nav threshold entries
  match r.1 with
  | .error e => ⟨.error e, [], r.2, []⟩
  | .ok alerts =>
    ⟨.ok alerts.length, alerts, r.2, if alerts.isEmpty then [] else [alerts]⟩

/-- The filter `run` applies before calling the classifier: a present due
date no later than the threshold. -/
def inWin (threshold : Int) (e : Entry) : Bool :=
  match e.due with
  | none => false
  | some t => t ≤ threshold

/-- An entry `run` ends up alerting on: in the window and classified
unsubmitted (entries whose classification raises alert nothing). -/
def atRisk (nav : String → Except String String) (threshold : Int) (e : Entry) : Bool :=
  match e.due with
  | none => false
  | some t =>
    t ≤ threshold &&
      (match is_submitted nav e.link with
       | .ok b => !b
       | .error _ => false)

/-- Page-handle lifecycle operations performed against the browser
context. -/
inductive PgEvent where
  | opened
  | closed
deriving DecidableEq, Repr

/-- Whole-scan embedding of `LetusChecker.run` including `login`: the one
`new_page` in `login` is the only page-lifecycle operation the code
performs — no branch of `login`, `fetch_upcoming`, `is_submitted`, `run`
or `notify` ever calls `page.close()`. -/
def scanModel (cached : Bool) (store : String → Option String)
    (postLoginHtml : String) (entries : List Entry)
    (nav : String → Except String String) (now : Int) (h : Int) :
    Except PyErr Nat × List (List Entry) × List PgEvent :=
  match loginResult cached store postLoginHtml with
  | .error e => (.error e, [], [.opened])
  | .ok _ =>
    let r := runScan nav entries now h
    (r.outcome, r.notified, [.opened])

/-- Token selection in `notify` (line 81): Python
`os.getenv("LINE_NOTIFY_TOKEN") or get_secret("LINE_TOKEN")` — the
environment value is used only when truthy (set and non-empty), else the
stored secret, which may itself be absent or empty. -/
def lineToken (env stored : Option String) : Option String :=
  match env with
  | some s => if s = "" then stored else some s
  | none => stored

/-- Where `notify` sends the message. -/
inductive NotifyCh where
  | webhookPost (token : String)
  | consoleOut
deriving DecidableEq, Repr

/-- Delivery decision of `notify` (lines 89–96): POST with a bearer token
when the selected token is truthy, otherwise print to the console. -/
def notifyChannel (env stored : Option String) : NotifyCh :=
  match lineToken env stored with
  | some t => if t = "" then .consoleOut else .webhookPost t
  | none => .consoleOut

theorem is_submitted_error_kind (nav : String → Except String String)
    (link : Option String) (err : PyErr) (h : is_submitted nav link = .error err) :
    err.kind = .playwrightError := by
  cases link with
  | none =>
    simp only [is_submitted, Except.error.injEq] at h
    rw [← h]
  | some url =>
    simp only [is_submitted] at h
    cases hnav : nav url with
    | error m => rw [hnav] at h; simp only [Except.error.injEq] at h; rw [← h]
    | ok html => rw [hnav] at h; cases h

theorem runLoop_ok_alerts (nav : String → Except String String) (th : Int) :
    ∀ l al, (runLoop nav th l).1 = .ok al → al = l.filter (atRisk nav th) := by
  intro l
  induction l with
  | nil =>
    intro al h
    simp only [runLoop] at h
    cases h
    simp
  | cons e rest ih =>
    intro al h
    simp only [runLoop] at h
    split at h
    next hd =>
      rw [List.filter_cons_of_neg (by simp [atRisk, hd])]
      exact ih al h
    next t hd =>
      split at h
      next hth =>
        split at h
        next er hs => simp at h
        next hs =>
          dsimp only at h
          rw [List.filter_cons_of_neg (by simp [atRisk, hd, hs])]
          exact ih al h
        next hs =>
          dsimp only at h
          split at h
          next l0 hp =>
            cases h
            rw [List.filter_cons_of_pos (by simp [atRisk, hd, hs, hth])]
            rw [ih l0 hp]
          next er hp => simp at h
      next hth =>
        rw [List.filter_cons_of_neg (by simp [atRisk, hd, hth])]
        exact ih al h

theorem runLoop_ok_classified (nav : String → Except String String) (th : Int) :
    ∀ l al, (runLoop nav th l).1 = .ok al →
      (runLoop nav th l).2 = l.filter (inWin th) := by
  intro l
  induction l with
  | nil => intro al _; simp [runLoop]
  | cons e rest ih =>
    intro al h
    simp only [runLoop] at h
    split at h
    next hd =>
      simp only [runLoop, hd]
      rw [List.filter_cons_of_neg (by simp [inWin, hd])]
      exact ih al h
    next t hd =>
      split at h
      next hth =>
        split at h
        next er hs => simp at h
        next hs =>
          dsimp only at h
          simp only [runLoop, hd, hs, if_pos hth]
          rw [List.filter_cons_of_pos (by simp [inWin, hd, hth])]
          rw [ih al h]
        next hs =>
          dsimp only at h
          split at h
          next l0 hp =>
            cases h
            simp only [runLoop, hd, hs, if_pos hth]
            rw [List.filter_cons_of_pos (by simp [inWin, hd, hth])]
            rw [ih l0 hp]
          next er hp => simp at h
      next hth =>
        simp only [runLoop, hd, if_neg hth]
        rw [List.filter_cons_of_neg (by simp [inWin, hd, hth])]
        exact ih al h

theorem runLoop_classified_has_due (nav : String → Except String String) (th : Int) :
    ∀ l x, x ∈ (runLoop nav th l).2 → x.due ≠ none := by
  intro l
  induction l with
  | nil => intro x hx; simp [runLoop] at hx
  | cons e rest ih =>
    intro x hx
    simp only [runLoop] at hx
    split at hx
    next hd => exact ih x hx
    next t hd =>
      split at hx
      next hth =>
        split at hx
        next er hs =>
          dsimp only at hx
          simp only [List.mem_singleton] at hx
          rw [hx, hd]
          simp
        next hs =>
          dsimp only at hx
          rw [List.mem_cons] at hx
          rcases hx with hx | hx
          · rw [hx, hd]; simp
          · exact ih x hx
        next hs =>
          dsimp only at hx
          rw [List.mem_cons] at hx
          rcases hx with hx | hx
          · rw [hx, hd]; simp
          · exact ih x hx
      next hth => exact ih x hx

theorem runLoop_error_kind (nav : String → Except String String) (th : Int) :
    ∀ l err, (runLoop nav th l).1 = .error err → err.kind = .playwrightError := by
  intro l
  induction l with
  | nil => intro err h; simp [runLoop] at h
  | cons e rest ih =>
    intro err h
    simp only [runLoop] at h
    split at h
    next hd => exact ih err h
    next t hd =>
      split at h
      next hth =>
        split at h
        next er hs =>
          dsimp only at h
          simp only [Except.error.injEq] at h
          rw [← h]
          exact is_submitted_error_kind nav e.link er hs
        next hs =>
          dsimp only at h
          exact ih err h
        next hs =>
          dsimp only at h
          split at h
          next l0 hp => simp at h
          next er hp =>
            simp only [Except.error.injEq] at h
            rw [← h]
            exact ih er hp
      next hth => exact ih err h

theorem runLoop_error_of_witness (nav : String → Except String String) (th : Int) :
    ∀ l e t err0, e ∈ l → e.due = some t → t ≤ th →
      is_submitted nav e.link = .error err0 →
      ∃ err, (runLoop nav th l).1 = .error err := by
  intro l
  induction l with
  | nil => intro e t err0 hmem _ _ _; cases hmem
  | cons a rest ih =>
    intro e t err0 hmem hdue hth hsub
    rcases List.mem_cons.mp hmem with rfl | hmem
    · refine ⟨err0, ?_⟩
      simp only [runLoop, hdue, hsub, if_pos hth]
    · cases hd : a.due with
      | none =>
        simp only [runLoop, hd]
        exact ih e t err0 hmem hdue hth hsub
      | some s =>
        by_cases hs2 : s ≤ th
        · cases hsub2 : is_submitted nav a.link with
          | error er =>
            exact ⟨er, by simp only [runLoop, hd, hsub2, if_pos hs2]⟩
          | ok b =>
            obtain ⟨err, herr⟩ := ih e t err0 hmem hdue hth hsub
            cases b with
            | true =>
              refine ⟨err, ?_⟩
              simp only [runLoop, hd, hsub2, if_pos hs2]
              exact herr
            | false =>
              refine ⟨err, ?_⟩
              simp only [runLoop, hd, hsub2, if_pos hs2]
              rw [herr]
        · simp only [runLoop, hd, if_neg hs2]
          exact ih e t err0 hmem hdue hth hsub

/-- Character for one decimal digit. -/
def digitChar (n : Nat) : Char := Char.ofNat (48 + n)

/-- Two-digit zero-padded rendering. -/
def pad2 (n : Nat) : List Char := [digitChar (n / 10), digitChar (n % 10)]

/-- Four-digit zero-padded rendering. -/
def pad4 (n : Nat) : List Char :=
  [digitChar (n / 1000), digitChar (n / 100 % 10), digitChar (n / 10 % 10), digitChar (n % 10)]

/-- One- or two-digit rendering (no padding), for values below 100. -/
def nat2 (n : Nat) : List Char := if n < 10 then [digitChar n] else pad2 n

/-- Rendering of the localized numeric-calendar form described by the
spec: 4-digit year, 1-2 digit month/day/hour, 2-digit minute, with the
year/month/day glyph separators and `hh:mm`. -/
def renderJP (y m d hh mm : Nat) : List Char :=
  pad4 y ++ '年' :: (nat2 m ++ '月' :: (nat2 d ++ '日' :: ' ' :: (nat2 hh ++ ':' :: pad2 mm)))

theorem digitChar_toNat (k : Nat) (hk : k < 10) : (digitChar k).toNat = 48 + k := by
  interval_cases k <;> decide

theorem isDig_digitChar (k : Nat) (hk : k < 10) : isDig (digitChar k) = true := by
  interval_cases k <;> decide

theorem digitChar_ne (k : Nat) (hk : k < 10) (c : Char) (hc : 57 < c.toNat ∨ c.toNat < 48) :
    (digitChar k = c) = False := by
  simp only [eq_iff_iff, iff_false]
  intro h
  have := congrArg Char.toNat h
  rw [digitChar_toNat k hk] at this
  omega

theorem isWs_digitChar (k : Nat) (hk : k < 10) : isWs (digitChar k) = false := by
  interval_cases k <;> decide

theorem digitsVal_one (a : Nat) (ha : a < 10) : digitsVal [digitChar a] = a := by
  simp [digitsVal, List.foldl, digitChar_toNat a ha]

theorem digitsVal_two (a b : Nat) (ha : a < 10) (hb : b < 10) :
    digitsVal [digitChar a, digitChar b] = 10 * a + b := by
  simp [digitsVal, List.foldl, digitChar_toNat a ha, digitChar_toNat b hb]
  omega

theorem digitsVal_pad2 (n : Nat) (hn : n < 100) : digitsVal (pad2 n) = n := by
  have h1 : n / 10 < 10 := by omega
  have h2 : n % 10 < 10 := by omega
  simp only [pad2, digitsVal_two _ _ h1 h2]
  omega

theorem digitsVal_nat2 (n : Nat) (hn : n < 100) : digitsVal (nat2 n) = n := by
  by_cases h : n < 10
  · simp [nat2, h, digitsVal_one n h]
  · simp only [nat2, if_neg h]
    exact digitsVal_pad2 n hn

theorem digitsVal_pad4 (n : Nat) (hn : n ≤ 9999) : digitsVal (pad4 n) = n := by
  have h1 : n / 1000 < 10 := by omega
  have h2 : n / 100 % 10 < 10 := by omega
  have h3 : n / 10 % 10 < 10 := by omega
  have h4 : n % 10 < 10 := by omega
  simp [digitsVal, List.foldl, digitChar_toNat _ h1, digitChar_toNat _ h2,
    digitChar_toNat _ h3, digitChar_toNat _ h4]
  omega

theorem takeExact_pad4 (n : Nat) (hn : n ≤ 9999) (rest : List Char) :
    takeExact 4 (pad4 n ++ rest) = some (pad4 n, rest) := by
  have h1 : n / 1000 < 10 := by omega
  have h2 : n / 100 % 10 < 10 := by omega
  have h3 : n / 10 % 10 < 10 := by omega
  have h4 : n % 10 < 10 := by omega
  simp [pad4, takeExact, isDig_digitChar _ h1, isDig_digitChar _ h2,
    isDig_digitChar _ h3, isDig_digitChar _ h4]

theorem takeExact_pad2 (n : Nat) (hn : n < 100) (rest : List Char) :
    takeExact 2 (pad2 n ++ rest) = some (pad2 n, rest) := by
  have h1 : n / 10 < 10 := by omega
  have h2 : n % 10 < 10 := by omega
  simp [pad2, takeExact, isDig_digitChar _ h1, isDig_digitChar _ h2]

theorem take12_one (c c2 : Char) (rest : List Char) (hc : isDig c = true)
    (hc2 : isDig c2 = false) :
    take12 (c :: c2 :: rest) = [([c], c2 :: rest)] := by
  simp [take12, hc, hc2]

theorem take12_two (c1 c2 : Char) (rest : List Char) (hc1 : isDig c1 = true)
    (hc2 : isDig c2 = true) :
    take12 (c1 :: c2 :: rest) = [([c1, c2], rest), ([c1], c2 :: rest)] := by
  simp [take12, hc1, hc2]

theorem nat2_small (n : Nat) (h : n < 10) : nat2 n = [digitChar n] := by
  simp [nat2, h]

theorem nat2_large (n : Nat) (h : ¬ n < 10) :
    nat2 n = [digitChar (n / 10), digitChar (n % 10)] := by
  simp [nat2, h, pad2]

theorem jpMin_pad2 (mm : Nat) (hmm : mm < 100) : jpMin (pad2 mm) = [mm] := by
  have h := takeExact_pad2 mm hmm []
  rw [List.append_nil] at h
  simp [jpMin, h, digitsVal_pad2 mm hmm]

theorem jpHour_render (hh mm : Nat) (hhh : hh < 100) (hmm : mm < 100) :
    jpHour (nat2 hh ++ ':' :: pad2 mm) = [(hh, mm)] := by
  by_cases h : hh < 10
  · rw [nat2_small hh h]
    simp only [List.cons_append, List.nil_append, jpHour]
    rw [take12_one _ _ _ (isDig_digitChar hh h) (by decide)]
    simp [jpMin_pad2 mm hmm, digitsVal_one hh h]
  · have h1 : hh / 10 < 10 := by omega
    have h2 : hh % 10 < 10 := by omega
    rw [nat2_large hh h]
    simp only [List.cons_append, List.nil_append, jpHour]
    rw [take12_two _ _ _ (isDig_digitChar _ h1) (isDig_digitChar _ h2)]
    simp only [List.flatMap_cons, List.flatMap_nil]
    simp only [digitChar_ne (hh % 10) h2 ':' (by decide)]
    simp [jpMin_pad2 mm hmm, digitsVal_two _ _ h1 h2]
    omega

theorem jpDay_render (d hh mm : Nat) (hd : d < 100) (hhh : hh < 100) (hmm : mm < 100) :
    jpDay (nat2 d ++ '日' :: ' ' :: (nat2 hh ++ ':' :: pad2 mm)) = [(d, hh, mm)] := by
  have hws : (' ' :: (nat2 hh ++ ':' :: pad2 mm)).dropWhile isWs
      = nat2 hh ++ ':' :: pad2 mm := by
    rw [List.dropWhile_cons_of_pos (by decide)]
    by_cases h : hh < 10
    · rw [nat2_small hh h]
      simp only [List.cons_append]
      rw [List.dropWhile_cons_of_neg]
      rw [isWs_digitChar hh h]
      simp
    · have h1 : hh / 10 < 10 := by omega
      rw [nat2_large hh h]
      simp only [List.cons_append]
      rw [List.dropWhile_cons_of_neg]
      rw [isWs_digitChar _ h1]
      simp
  by_cases h : d < 10
  · rw [nat2_small d h]
    simp only [List.cons_append, List.nil_append, jpDay]
    rw [take12_one _ _ _ (isDig_digitChar d h) (by decide)]
    simp only [List.flatMap_cons, List.flatMap_nil]
    simp only [List.append_nil, if_pos rfl]
    rw [hws, jpHour_render hh mm hhh hmm]
    simp [digitsVal_one d h]
  · have h1 : d / 10 < 10 := by omega
    have h2 : d % 10 < 10 := by omega
    rw [nat2_large d h]
    simp only [List.cons_append, List.nil_append, jpDay]
    rw [take12_two _ _ _ (isDig_digitChar _ h1) (isDig_digitChar _ h2)]
    simp only [List.flatMap_cons, List.flatMap_nil]
    simp only [digitChar_ne (d % 10) h2 '日' (by decide)]
    simp only [List.append_nil, if_pos rfl, if_false]
    rw [hws, jpHour_render hh mm hhh hmm]
    simp [digitsVal_two _ _ h1 h2]
    omega

theorem jpMonth_render (m d hh mm : Nat) (hm : m < 100) (hd : d < 100)
    (hhh : hh < 100) (hmm : mm < 100) :
    jpMonth (nat2 m ++ '月' :: (nat2 d ++ '日' :: ' ' :: (nat2 hh ++ ':' :: pad2 mm)))
      = [(m, d, hh, mm)] := by
  by_cases h : m < 10
  · rw [nat2_small m h]
    simp only [List.cons_append, List.nil_append, jpMonth]
    rw [take12_one _ _ _ (isDig_digitChar m h) (by decide)]
    simp only [List.flatMap_cons, List.flatMap_nil]
    simp only [List.append_nil, if_pos rfl]
    rw [jpDay_render d hh mm hd hhh hmm]
    simp [digitsVal_one m h]
  · have h1 : m / 10 < 10 := by omega
    have h2 : m % 10 < 10 := by omega
    rw [nat2_large m h]
    simp only [List.cons_append, List.nil_append, jpMonth]
    rw [take12_two _ _ _ (isDig_digitChar _ h1) (isDig_digitChar _ h2)]
    simp only [List.flatMap_cons, List.flatMap_nil]
    simp only [digitChar_ne (m % 10) h2 '月' (by decide)]
    simp only [List.append_nil, if_pos rfl, if_false]
    rw [jpDay_render d hh mm hd hhh hmm]
    simp [digitsVal_two _ _ h1 h2]
    omega

theorem jpCands_render (y m d hh mm : Nat) (hy : y ≤ 9999) (hm : m < 100)
    (hd : d < 100) (hhh : hh < 100) (hmm : mm < 100) :
    jpCands (renderJP y m d hh mm) = [⟨y, m, d, hh, mm⟩] := by
  simp only [renderJP, jpCands]
  rw [takeExact_pad4 y hy]
  simp only [if_pos rfl]
  rw [jpMonth_render m d hh mm hm hd hhh hmm]
  simp [digitsVal_pad4 y hy]

theorem searchJP_render (y m d hh mm : Nat) (hy : y ≤ 9999) (hm : m < 100)
    (hd : d < 100) (hhh : hh < 100) (hmm : mm < 100) :
    searchJP (renderJP y m d hh mm) = some ⟨y, m, d, hh, mm⟩ := by
  have hc := jpCands_render y m d hh mm hy hm hd hhh hmm
  have hshape : renderJP y m d hh mm
      = digitChar (y / 1000) :: (digitChar (y / 100 % 10) :: digitChar (y / 10 % 10)
          :: digitChar (y % 10) :: '年'
          :: (nat2 m ++ '月' :: (nat2 d ++ '日' :: ' ' :: (nat2 hh ++ ':' :: pad2 mm)))) := by
    simp [renderJP, pad4]
  rw [hshape] at hc ⊢
  simp only [searchJP, hc, List.head?]



theorem daysInMonth_le (y m : Nat) : daysInMonth y m ≤ 31 := by
  simp only [daysInMonth]
  split
  · split <;> omega
  · split <;> omega

/-- C8: the localized-form round trip — rendering any valid
year/month/day/hour/minute in the Japanese numeric-calendar shape and
parsing it back yields a timestamp with exactly those fields (in the
fixed reference timezone that every parsed timestamp carries). -/
theorem jp_round_trip (y m d hh mm : Nat) (hv : validDT y m d hh mm = true) :
    parse_due_date (renderJP y m d hh mm) = .parsed ⟨y, m, d, hh, mm⟩ := by
  have hb : 1 ≤ y ∧ y ≤ 9999 ∧ 1 ≤ m ∧ m ≤ 12 ∧ 1 ≤ d ∧ d ≤ daysInMonth y m
      ∧ hh ≤ 23 ∧ mm ≤ 59 := by
    simpa [validDT, Bool.and_eq_true, decide_eq_true_eq, and_assoc] using hv
  obtain ⟨hy1, hy2, hm1, hm2, hd1, hd2, hhh, hmm⟩ := hb
  have hdm := daysInMonth_le y m
  rw [parse_due_date,
    searchJP_render y m d hh mm hy2 (by omega) (by omega) (by omega) (by omega)]
  simp [mkDT, hv]

/-- C8 witness: the round trip at the concrete instant 2025-08-05 21:05. -/
theorem jp_round_trip_witness :
    validDT 2025 8 5 21 5 = true ∧
    parse_due_date (renderJP 2025 8 5 21 5) = .parsed ⟨2025, 8, 5, 21, 5⟩ :=
  ⟨by decide, jp_round_trip 2025 8 5 21 5 (by decide)⟩

/-- C1: the claim says the page handle obtained from `login` is closed
exactly once before the scan ends.  The code performs exactly one
`new_page` and never calls `page.close()` on any path, so the count of
close events is always zero — never one; in particular in the scenario of
the repository's own test `test_run_closes_page` (one in-window
unsubmitted entry, window two hours) the scan returns 1 with the page
still open. -/
theorem run_never_closes_page :
    (∀ cached store postLoginHtml entries nav now h,
      ((scanModel cached store postLoginHtml entries nav now h).2.2).count PgEvent.closed
        = 0) ∧
    (scanModel true (fun _ => none) "" [⟨"dummy", some "dummy", some 3600⟩]
        (fun _ => .ok "") 0 2).1 = .ok 1 ∧
    (scanModel true (fun _ => none) "" [⟨"dummy", some "dummy", some 3600⟩]
        (fun _ => .ok "") 0 2).2.2 = [PgEvent.opened] := by
  refine ⟨?_, by rfl, by rfl⟩
  intro cached store postLoginHtml entries nav now h
  simp only [scanModel]
  cases hl : loginResult cached store postLoginHtml <;> rfl

/-- C2: the claim says `parse_due_date` never raises on malformed input.
On `"2024年13月1日 10:00"` the Japanese regex matches with month 13, and
the `dt.datetime` constructor then raises `ValueError`, so the parse
raises instead of returning absent. -/
theorem parse_raises_on_out_of_range_month :
    searchJP "2024年13月1日 10:00".data = some ⟨2024, 13, 1, 10, 0⟩ ∧
    parse_due_date "2024年13月1日 10:00".data = .raised := by
  exact ⟨by decide, by decide⟩

/-- C3 counterexample: the claim requires the missing-credentials failure
to be distinguishable from the login-failure one by kind, not merely by
message.  Both paths of `login` raise a plain `RuntimeError`, so the two
kinds coincide. -/
theorem login_error_kinds_coincide :
    loginResult false (fun _ => none) "page"
      = .error ⟨.runtimeError, "Credentials not stored; run with --configure first."⟩ ∧
    loginResult false (fun _ => some "user") "<div>ログインエラー</div>"
      = .error ⟨.runtimeError, "Login failed – check credentials/MFA."⟩ ∧
    loginErrKind (loginResult false (fun _ => none) "page")
      = loginErrKind (loginResult false (fun _ => some "user") "<div>ログインエラー</div>") := by
  exact ⟨by rfl, by rfl, by rfl⟩

/-- C3 amended: with no cached session, missing (or empty) stored
credentials raise a `RuntimeError` whose message instructs to run setup,
and this is distinguishable from the authentication-failure `RuntimeError`
only by message text — the kinds of the two errors are equal. -/
theorem missing_creds_config_error (store store2 : String → Option String)
    (html html2 : String)
    (h1 : (falsyOpt (store "USERNAME") || falsyOpt (store "PASSWORD")) = true)
    (h2 : (falsyOpt (store2 "USERNAME") || falsyOpt (store2 "PASSWORD")) = false)
    (h4 : containsStr html2 "ログインエラー" = true) :
    loginResult false store html
      = .error ⟨.runtimeError, "Credentials not stored; run with --configure first."⟩ ∧
    loginResult false store2 html2
      = .error ⟨.runtimeError, "Login failed – check credentials/MFA."⟩ ∧
    ("Credentials not stored; run with --configure first." : String)
      ≠ "Login failed – check credentials/MFA." ∧
    loginErrKind (loginResult false store html)
      = loginErrKind (loginResult false store2 html2) := by
  have e1 : loginResult false store html
      = .error ⟨.runtimeError, "Credentials not stored; run with --configure first."⟩ := by
    simp [loginResult, h1]
  have e2 : loginResult false store2 html2
      = .error ⟨.runtimeError, "Login failed – check credentials/MFA."⟩ := by
    simp [loginResult, h2, h4]
  refine ⟨e1, e2, by decide, ?_⟩
  rw [e1, e2]
  rfl

/-- C3 amended, witness at a concrete empty store and a concrete page
carrying the failure marker. -/
theorem missing_creds_config_error_witness :
    loginResult false (fun _ => none) "home"
      = .error ⟨.runtimeError, "Credentials not stored; run with --configure first."⟩ ∧
    loginResult false (fun _ => some "u") "xログインエラーx"
      = .error ⟨.runtimeError, "Login failed – check credentials/MFA."⟩ ∧
    ("Credentials not stored; run with --configure first." : String)
      ≠ "Login failed – check credentials/MFA." ∧
    loginErrKind (loginResult false (fun _ => none) "home")
      = loginErrKind (loginResult false (fun _ => some "u") "xログインエラーx") :=
  missing_creds_config_error (fun _ => none) (fun _ => some "u") "home" "xログインエラーx"
    (by decide) (by decide) (by decide)

/-- C4: when a scan completes normally with `n` at-risk entries, the
notifier is invoked zero times if `n = 0` and exactly once — with the full
alert list, which is exactly the at-risk sublist of the fetched entries —
if `n ≥ 1`. -/
theorem notify_once_with_full_list (nav : String → Except String String)
    (entries : List Entry) (now h : Int) (n : Nat)
    (hok : (runScan nav entries now h).outcome = .ok n) :
    (runScan nav entries now h).alerts = entries.filter (atRisk nav (now + 3600 * h)) ∧
    (runScan nav entries now h).alerts.length = n ∧
    (runScan nav entries now h).notified =
      (if n = 0 then [] else [(runScan nav entries now h).alerts]) := by
  simp only [runScan] at hok ⊢
  cases hr : (runLoop nav (now + 3600 * h) entries).1 with
  | error e => simp only [hr] at hok; cases hok
  | ok al =>
    simp only [hr] at hok ⊢
    simp only [Except.ok.injEq] at hok
    subst hok
    refine ⟨runLoop_ok_alerts nav _ entries al hr, rfl, ?_⟩
    cases al with
    | nil => simp
    | cons a r => simp

/-- C4 witness: two entries, one submitted and one not, produce one
notification carrying exactly the single unsubmitted entry. -/
theorem notify_once_with_full_list_witness :
    (runScan (fun u => if u = "sub" then Except.ok "提出済" else Except.ok "")
        [⟨"a", some "sub", some 10⟩, ⟨"b", some "unsub", some 20⟩] 0 1).alerts
      = List.filter
          (atRisk (fun u => if u = "sub" then Except.ok "提出済" else Except.ok "")
            (0 + 3600 * 1))
          [⟨"a", some "sub", some 10⟩, ⟨"b", some "unsub", some 20⟩] ∧
    (runScan (fun u => if u = "sub" then Except.ok "提出済" else Except.ok "")
        [⟨"a", some "sub", some 10⟩, ⟨"b", some "unsub", some 20⟩] 0 1).alerts.length = 1 ∧
    (runScan (fun u => if u = "sub" then Except.ok "提出済" else Except.ok "")
        [⟨"a", some "sub", some 10⟩, ⟨"b", some "unsub", some 20⟩] 0 1).notified =
      (if (1 : Nat) = 0 then []
       else [(runScan (fun u => if u = "sub" then Except.ok "提出済" else Except.ok "")
          [⟨"a", some "sub", some 10⟩, ⟨"b", some "unsub", some 20⟩] 0 1).alerts]) :=
  notify_once_with_full_list _ _ 0 1 1 (by rfl)

/-- C5: on a normally completed scan, exactly the entries whose due date
is present and `≤ now + windowHours` (a closed upper bound, time in
seconds) are handed to the submission classifier. -/
theorem window_upper_bound_closed (nav : String → Except String String)
    (entries : List Entry) (now h : Int) (n : Nat)
    (hok : (runScan nav entries now h).outcome = .ok n) :
    (runScan nav entries now h).classified = entries.filter (inWin (now + 3600 * h)) ∧
    (∀ e, inWin (now + 3600 * h) e = true ↔ ∃ t, e.due = some t ∧ t ≤ now + 3600 * h) := by
  constructor
  · simp only [runScan] at hok ⊢
    cases hr : (runLoop nav (now + 3600 * h) entries).1 with
    | error e => simp only [hr] at hok; cases hok
    | ok al =>
      simp only [hr]
      exact runLoop_ok_classified nav _ entries al hr
  · intro e
    cases hd : e.due with
    | none => simp [inWin, hd]
    | some t => simp [inWin, hd]

/-- C5 witness: with the window threshold at 172800 seconds (48 hours
from `now = 0`), the entry due exactly at the threshold is classified and
the entry due one second later is not. -/
theorem window_upper_bound_closed_witness :
    (runScan (fun _ => Except.ok "")
        [⟨"a", some "u", some 172800⟩, ⟨"b", some "u", some 172801⟩] 0 48).classified
      = List.filter (inWin (0 + 3600 * 48))
          [⟨"a", some "u", some 172800⟩, ⟨"b", some "u", some 172801⟩] ∧
    (runScan (fun _ => Except.ok "")
        [⟨"a", some "u", some 172800⟩, ⟨"b", some "u", some 172801⟩] 0 48).classified
      = [⟨"a", some "u", some 172800⟩] :=
  ⟨(window_upper_bound_closed _ _ 0 48 1 (by rfl)).1, by decide⟩

/-- C6: an entry with an absent due date is never handed to the
classifier, never appears in any notified batch, and is never at risk,
for every window size. -/
theorem absent_due_excluded (nav : String → Except String String)
    (entries : List Entry) (now h : Int) (e : Entry) (he : e.due = none) :
    e ∉ (runScan nav entries now h).classified ∧
    (∀ b ∈ (runScan nav entries now h).notified, e ∉ b) ∧
    atRisk nav (now + 3600 * h) e = false := by
  have hcl : ∀ x ∈ (runLoop nav (now + 3600 * h) entries).2, x.due ≠ none :=
    runLoop_classified_has_due nav _ entries
  refine ⟨?_, ?_, by simp [atRisk, he]⟩
  · simp only [runScan]
    cases hr : (runLoop nav (now + 3600 * h) entries).1 with
    | error er =>
      simp only [hr]
      intro hmem
      exact hcl e hmem he
    | ok al =>
      simp only [hr]
      intro hmem
      exact hcl e hmem he
  · simp only [runScan]
    cases hr : (runLoop nav (now + 3600 * h) entries).1 with
    | error er =>
      simp only [hr]
      intro b hb
      simp at hb
    | ok al =>
      simp only [hr]
      intro b hb
      by_cases hemp : al.isEmpty
      · rw [if_pos hemp] at hb
        simp at hb
      · rw [if_neg hemp] at hb
        simp only [List.mem_singleton] at hb
        intro hmem
        rw [hb] at hmem
        rw [runLoop_ok_alerts nav _ entries al hr] at hmem
        have hp := List.of_mem_filter hmem
        simp [atRisk, he] at hp

/-- C6 witness: an entry with no due date is skipped entirely even with a
large window. -/
theorem absent_due_excluded_witness :
    ⟨"x", some "u", none⟩ ∉
      (runScan (fun _ => Except.ok "") [⟨"x", some "u", none⟩] 0 1000).classified ∧
    atRisk (fun _ => Except.ok "") (0 + 3600 * 1000) ⟨"x", some "u", none⟩ = false :=
  ⟨(absent_due_excluded (fun _ => Except.ok "") [⟨"x", some "u", none⟩] 0 1000
      ⟨"x", some "u", none⟩ rfl).1,
   (absent_due_excluded (fun _ => Except.ok "") [⟨"x", some "u", none⟩] 0 1000
      ⟨"x", some "u", none⟩ rfl).2.2⟩

/-- C7: when some in-window entry's classification raises — in particular
when its link is absent — the error (a navigation-level, Playwright-kind
error) propagates out of the scan and no notification is delivered. -/
theorem classification_error_propagates (nav : String → Except String String)
    (entries : List Entry) (now h : Int) (e : Entry) (t : Int) (err0 : PyErr)
    (hmem : e ∈ entries) (hdue : e.due = some t) (hwin : t ≤ now + 3600 * h)
    (herr : is_submitted nav e.link = .error err0) :
    (∃ err, (runScan nav entries now h).outcome = .error err ∧
      err.kind = .playwrightError) ∧
    (runScan nav entries now h).notified = [] := by
  obtain ⟨err, hloop⟩ :=
    runLoop_error_of_witness nav (now + 3600 * h) entries e t err0 hmem hdue hwin herr
  have hk := runLoop_error_kind nav (now + 3600 * h) entries err hloop
  constructor
  · exact ⟨err, by simp only [runScan, hloop], hk⟩
  · simp only [runScan, hloop]

/-- C7 witness: a single in-window entry whose link is `None` aborts the
scan with a propagated error and no notification. -/
theorem classification_error_propagates_witness :
    (∃ err, (runScan (fun _ => Except.ok "") [⟨"x", none, some 0⟩] 0 1).outcome
        = .error err ∧ err.kind = .playwrightError) ∧
    (runScan (fun _ => Except.ok "") [⟨"x", none, some 0⟩] 0 1).notified = [] :=
  classification_error_propagates (fun _ => Except.ok "") [⟨"x", none, some 0⟩] 0 1
    ⟨"x", none, some 0⟩ 0 ⟨.playwrightError, "goto: url expected string, got NoneType"⟩
    (by decide) rfl (by decide) (by rfl)

/-- C9: every English-pattern match converts its 12-hour clock reading to
24 hours as `hour % 12 + (12 if PM else 0)`, with the meridiem marker
compared case-insensitively; in particular 9:15 PM parses to 21:15 and
9:15 AM to 9:15, also with a lowercase marker. -/
theorem en_meridiem_conversion :
    (∀ text g t, searchJP text = none → searchEN text = some g →
        parse_due_date text = .parsed t →
        t.hour = g.hour12 % 12 + (if g.ampm.map lowerAsc = "pm".data then 12 else 0)) ∧
    parse_due_date "5 August 2025 at 9:15 PM".data = .parsed ⟨2025, 8, 5, 21, 15⟩ ∧
    parse_due_date "5 August 2025 at 9:15 AM".data = .parsed ⟨2025, 8, 5, 9, 15⟩ ∧
    parse_due_date "5 august 2025 at 9:15 pm".data = .parsed ⟨2025, 8, 5, 21, 15⟩ := by
  refine ⟨?_, by decide, by decide, by decide⟩
  intro text g t hjp hen hp
  simp only [parse_due_date, hjp, hen] at hp
  cases hm : monthFromAbbr ((g.mon.take 3).map lowerAsc) with
  | none => simp only [hm] at hp; cases hp
  | some mi =>
    simp only [hm, mkDT] at hp
    generalize hq : (if g.ampm.map lowerAsc = "pm".data then 12 else 0) = pmAdd at hp ⊢
    split at hp
    next hv =>
      cases hp
      rfl
    next hv => cases hp

/-- C9 witness: applying the conversion law at the PM example. -/
theorem en_meridiem_conversion_witness :
    (⟨2025, 8, 5, 21, 15⟩ : DT).hour
      = 9 % 12 + (if ("PM".data.map lowerAsc) = "pm".data then 12 else 0) :=
  en_meridiem_conversion.1 "5 August 2025 at 9:15 PM".data
    ⟨5, "August".data, 2025, 9, 15, "PM".data⟩ ⟨2025, 8, 5, 21, 15⟩
    (by decide) (by decide) (by decide)

/-- C10: the environment token takes precedence only when non-empty; an
empty environment value falls back to the stored secret, and when the
selected token is absent or empty the message goes to the console instead
of the webhook. -/
theorem line_token_precedence :
    (∀ s stored, s ≠ "" → notifyChannel (some s) stored = .webhookPost s) ∧
    (∀ stored, notifyChannel (some "") stored = notifyChannel none stored) ∧
    (∀ env stored, lineToken env stored = none ∨ lineToken env stored = some "" →
      notifyChannel env stored = .consoleOut) := by
  refine ⟨?_, ?_, ?_⟩
  · intro s stored hs
    simp [notifyChannel, lineToken, hs]
  · intro stored
    simp [notifyChannel, lineToken]
  · intro env stored hcase
    rcases hcase with hc | hc <;> simp [notifyChannel, hc]

/-- C10 witness: concrete precedence and fallback checks. -/
theorem line_token_precedence_witness :
    notifyChannel (some "tok") (some "stored") = .webhookPost "tok" ∧
    notifyChannel (some "") (some "stored") = notifyChannel none (some "stored") ∧
    notifyChannel none none = .consoleOut :=
  ⟨line_token_precedence.1 "tok" (some "stored") (by decide),
   line_token_precedence.2.1 (some "stored"),
   line_token_precedence.2.2 none none (Or.inl rfl)⟩

end Letus
